import Mathlib

/-!
Verification of the Mines wagering game engine (`mines.py`).

The session state machine (`MinesView`), the payout calculator
(`calculate_multiplier`) and the command/modal validation pipeline are
shallowly embedded below.  Machine floats are modelled by exact rationals
(`ℚ`); Python's `int(x)` on a nonnegative value is `Nat.floor`.  External
ledger and statistics calls are modelled as an event trace emitted by each
operation, in the program order of the source.
-/

namespace Mines

/-! ### Constants (mines.py lines 19-31) -/

def MIN_BET : ℕ := 10
def MAX_BET : ℕ := 500000
def DEFAULT_BET : ℕ := 50
def GRID_WIDTH : ℕ := 3
def GRID_HEIGHT : ℕ := 3
def TOTAL_TILES : ℕ := GRID_WIDTH * GRID_HEIGHT
def MAX_MINES : ℕ := TOTAL_TILES - 1
def MIN_MINES : ℕ := 1

/-! ### Payout calculator (mines.py `calculate_multiplier`, lines 104-125).
The source takes `safe_tiles` as its first argument but never uses it; it
computes `TOTAL_TILES / (TOTAL_TILES - mines_count)` directly.  The house
edge literal `0.95` is the rational `19/20` and the cap `1000.0` is `1000`. -/

def calculate_multiplier (safe_tiles mines_count tiles_revealed : ℕ) : ℚ :=
  if tiles_revealed = 0 then 1
  else
    let base : ℚ := (TOTAL_TILES : ℚ) / ((TOTAL_TILES : ℚ) - (mines_count : ℚ))
    let m := base ^ tiles_revealed
    let m := m * (19 / 20)
    min m 1000

/-! ### Tiles and the session state (`MineTile`, `MinesView.__init__`).
Only the fields the game logic reads and writes are modelled: a tile's
mine flag, revealed flag and disabled flag; the view's bet, mine count,
game_over/won flags, revealed counter, multiplier, potential win, and its
membership in the process-wide `active_games` registry. -/

structure Tile where
  is_mine : Bool
  revealed : Bool
  disabled : Bool
deriving DecidableEq

structure MinesView where
  user_id : ℕ
  bet : ℕ
  mines_count : ℕ
  tiles : List Tile
  game_over : Bool
  won : Bool
  tiles_revealed : ℕ
  safe_tiles : ℕ
  current_multiplier : ℚ
  potential_win : ℕ
  in_registry : Bool
deriving DecidableEq

/-- `MinesView.__init__` (lines 163-185): fresh state for a given mine
layout (`mines[i] = true` iff tile `i` holds a mine, `i` the flat index
`x * GRID_HEIGHT + y` of `tiles[x][y]`). -/
def mk_view (user_id bet mines_count : ℕ) (mines : List Bool) : MinesView :=
  { user_id := user_id
    bet := bet
    mines_count := mines_count
    tiles := mines.map (fun b => { is_mine := b, revealed := false, disabled := false })
    game_over := false
    won := false
    tiles_revealed := 0
    safe_tiles := TOTAL_TILES - mines_count
    current_multiplier := 1
    potential_win := bet
    in_registry := true }

/-! ### External-call trace.  `credit u a` is `update_user_balance(u, a)`
with a positive amount, `debit u a` the same with a negative amount,
`stats` is `record_mines_stats`, and `flipGameOver` marks the program
point where `self.game_over = True` is executed. -/

inductive Event where
  | credit (user amount : ℕ)
  | debit (user amount : ℕ)
  | stats (user bet win mines_count tiles_revealed : ℕ)
  | flipGameOver
deriving DecidableEq

def isCredit : Event → Bool
  | .credit _ _ => true
  | _ => false

def isStats : Event → Bool
  | .stats _ _ _ _ _ => true
  | _ => false

def isFlip : Event → Bool
  | .flipGameOver => true
  | _ => false

def revealTile (t : Tile) : Tile := { t with revealed := true }

def disableTile (t : Tile) : Tile := { t with disabled := true }

/-! ### Session operations, translated line by line from `MinesView`. -/

/-- `_handle_victory` (lines 421-467): flips game_over/won, caps the
payout at `bet * 1000`, credits, records stats, disables every button and
removes the session from the registry. -/
def handle_victory (s : MinesView) : MinesView × List Event :=
  let s1 := { s with game_over := true, won := true }
  let final_payout := min s1.potential_win (s1.bet * 1000)
  let s2 := { s1 with tiles := s1.tiles.map disableTile, in_registry := false }
  (s2, [.flipGameOver, .credit s.user_id final_payout,
        .stats s.user_id s.bet final_payout s.mines_count s.tiles_revealed])

/-- `process_tile_click` (lines 351-419): no-op when the game is over or
the tile is already revealed; a mine ends the game with a loss (all mines
revealed, all tiles disabled, stats recorded, registry entry removed); a
safe tile bumps the counter, recomputes the multiplier and potential win,
and hands over to `_handle_victory` on a full clear. -/
def process_tile_click (s : MinesView) (p : ℕ) : MinesView × List Event :=
  if s.game_over then (s, [])
  else
    match s.tiles.get? p with
    | none => (s, [])
    | some tile =>
      if tile.revealed then (s, [])
      else if tile.is_mine then
        let tiles1 := (s.tiles.set p (revealTile tile)).map
          (fun t => if t.is_mine && !t.revealed then revealTile t else t)
        let s1 := { s with
                    tiles := tiles1.map disableTile
                    game_over := true
                    won := false
                    in_registry := false }
        (s1, [.flipGameOver, .stats s.user_id s.bet 0 s.mines_count s.tiles_revealed])
      else
        let tr := s.tiles_revealed + 1
        let m := calculate_multiplier s.safe_tiles s.mines_count tr
        let pw := ⌊(s.bet : ℚ) * m⌋₊
        let s1 := { s with
                    tiles := s.tiles.set p (revealTile tile)
                    tiles_revealed := tr
                    current_multiplier := m
                    potential_win := pw }
        if tr = s.safe_tiles then handle_victory s1 else (s1, [])

/-- `_process_cashout` (lines 469-539): guarded no-op when the game is
over or nothing was revealed; otherwise it credits the potential win and
records stats FIRST and only then sets `game_over = True` (line 493),
reveals the mines, disables everything and removes the registry entry. -/
def process_cashout (s : MinesView) : MinesView × List Event :=
  if s.game_over || s.tiles_revealed == 0 then (s, [])
  else
    let winnings := s.potential_win
    let s1 := { s with
                tiles := s.tiles.map
                  (fun t => disableTile (if t.is_mine && !t.revealed then revealTile t else t))
                game_over := true
                won := true
                in_registry := false }
    (s1, [.credit s.user_id winnings,
          .stats s.user_id s.bet winnings s.mines_count s.tiles_revealed,
          .flipGameOver])

/-- `exit_callback` (lines 545-589): refunds the bet only when nothing was
revealed and the game is not over; it then unconditionally reveals every
tile, disables the controls, sets `game_over = True` and removes the
registry entry — it is NOT guarded by `game_over`. -/
def exit_callback (s : MinesView) : MinesView × List Event :=
  let refund := s.tiles_revealed == 0 && !s.game_over
  let s1 := { s with
              tiles := s.tiles.map (fun t => disableTile (if !t.revealed then revealTile t else t))
              game_over := true
              in_registry := false }
  (s1, (if refund then [Event.credit s.user_id s.bet] else []) ++ [Event.flipGameOver])

/-- `on_timeout` (lines 239-275): full no-op when the game is already
over; auto-cashout when at least one tile is revealed; otherwise a refund
of the bet with every tile revealed; in both live branches it then sets
`game_over = True` (line 271) and removes the registry entry. -/
def on_timeout (s : MinesView) : MinesView × List Event :=
  if s.game_over then (s, [])
  else if 0 < s.tiles_revealed then
    let r := process_cashout s
    ({ r.1 with game_over := true, in_registry := false }, r.2 ++ [Event.flipGameOver])
  else
    let s1 := { s with
                tiles := s.tiles.map (fun t => disableTile (if !t.revealed then revealTile t else t))
                game_over := true
                in_registry := false }
    (s1, [Event.credit s.user_id s.bet, Event.flipGameOver])

/-! ### Operations as a labelled step, and runs. -/

inductive Op where
  | click (p : ℕ)
  | cashout
  | exitGame
  | timeout
deriving DecidableEq

def apply_op (s : MinesView) : Op → MinesView × List Event
  | .click p => process_tile_click s p
  | .cashout => process_cashout s
  | .exitGame => exit_callback s
  | .timeout => on_timeout s

/-- Run a sequence of operations, concatenating the emitted traces. -/
def run (s : MinesView) : List Op → MinesView × List Event
  | [] => (s, [])
  | op :: ops =>
    let r := apply_op s op
    let r2 := run r.1 ops
    (r2.1, r.2 ++ r2.2)

/-- States reachable from a fresh session (`mk_view`) with a legal mine
layout, by any sequence of player/timer operations. -/
inductive Reachable (uid bet m : ℕ) : MinesView → Prop
  | init (mines : List Bool) (hlen : mines.length = TOTAL_TILES)
      (hcnt : mines.count true = m) (hlo : MIN_MINES ≤ m) (hhi : m ≤ MAX_MINES) :
      Reachable uid bet m (mk_view uid bet m mines)
  | next (s : MinesView) (op : Op) (h : Reachable uid bet m s) :
      Reachable uid bet m (apply_op s op).1

/-! ### Command and modal validation (`MinesCog.mines` lines 709-768,
`MinesCountModal.callback` lines 611-637). -/

/-- Modelled from the spec: `_parse_amount_shorthand` lives in
`commands.economy`, which is not part of this repository snapshot.  Per the
spec, malformed bet input is rejected before any balance mutation; we take
the parse outcome as the input: `allIn` for the literal "all" (which the
command handles before parsing), `parsed n` for a successfully parsed
amount, `malformed` when parsing yields no amount. -/
inductive BetInput where
  | allIn
  | parsed (n : ℕ)
  | malformed
deriving DecidableEq

inductive MinesResult where
  | rejected
  | modalShown (bet : ℕ)
deriving DecidableEq

/-- `MinesCog.mines` (lines 709-768): refuse a second concurrent game,
resolve the bet amount, validate it against `MIN_BET`, `MAX_BET` and the
balance — all before the debit — then debit and show the mine-count
modal. -/
def mines_command (uid : ℕ) (hasActiveGame : Bool) (cash : ℕ) (bet : BetInput) :
    MinesResult × List Event :=
  if hasActiveGame then (.rejected, [])
  else
    let amt : Option ℕ :=
      match bet with
      | .allIn => some cash
      | .parsed n => some n
      | .malformed => none
    match amt with
    | none => (.rejected, [])
    | some bet_amount =>
      if bet_amount < MIN_BET then (.rejected, [])
      else if bet_amount > MAX_BET then (.rejected, [])
      else if bet_amount > cash then (.rejected, [])
      else (.modalShown bet_amount, [.debit uid bet_amount])

/-- The mine-count modal input: `int(...)` either parses the single
character to an integer or raises `ValueError`. -/
inductive CountInput where
  | num (n : ℤ)
  | notNumeric
deriving DecidableEq

/-- `MinesCountModal.callback` (lines 611-637): an out-of-range count or a
non-numeric input refunds the full bet immediately; a valid count starts
the game. -/
def modal_callback (uid bet_amount : ℕ) (input : CountInput) : Option ℕ × List Event :=
  match input with
  | .num n =>
    if n < (MIN_MINES : ℤ) ∨ n > (MAX_MINES : ℤ) then (none, [.credit uid bet_amount])
    else (some n.toNat, [])
  | .notNumeric => (none, [.credit uid bet_amount])

/-- Net effect of a ledger trace on the player's balance. -/
def netDelta (evs : List Event) : ℤ :=
  evs.foldl
    (fun acc e =>
      match e with
      | .credit _ a => acc + a
      | .debit _ a => acc - a
      | _ => acc) 0

/-! ### Helper lemmas about the payout calculator. -/

lemma calc_mult_le_1000 (s m t : ℕ) : calculate_multiplier s m t ≤ 1000 := by
  unfold calculate_multiplier
  split
  · norm_num
  · exact min_le_right _ _

lemma base_ge_nine_eighths (m : ℕ) (h1 : 1 ≤ m) (h8 : m ≤ 8) :
    (9 / 8 : ℚ) ≤ (TOTAL_TILES : ℚ) / ((TOTAL_TILES : ℚ) - (m : ℚ)) := by
  interval_cases m <;> norm_num [TOTAL_TILES, GRID_WIDTH, GRID_HEIGHT]

lemma one_le_calc_mult (s m t : ℕ) (h1 : 1 ≤ m) (h8 : m ≤ 8) :
    1 ≤ calculate_multiplier s m t := by
  unfold calculate_multiplier
  split
  · exact le_refl 1
  · rename_i ht
    refine le_min ?_ (by norm_num)
    have hb := base_ge_nine_eighths m h1 h8
    have hb1 : (1 : ℚ) ≤ (TOTAL_TILES : ℚ) / ((TOTAL_TILES : ℚ) - (m : ℚ)) :=
      le_trans (by norm_num) hb
    have h2 : (9 / 8 : ℚ) ≤ ((TOTAL_TILES : ℚ) / ((TOTAL_TILES : ℚ) - (m : ℚ))) ^ t :=
      le_trans hb (le_self_pow₀ hb1 ht)
    nlinarith

lemma calc_mult_mono (s m t : ℕ) (h1 : 1 ≤ m) (h8 : m ≤ 8) (ht : 1 ≤ t) :
    calculate_multiplier s m (t - 1) ≤ calculate_multiplier s m t := by
  rcases t with _ | t'
  · omega
  · rcases t' with _ | t''
    · exact one_le_calc_mult s m 1 h1 h8
    · have hb := base_ge_nine_eighths m h1 h8
      have hb1 : (1 : ℚ) ≤ (TOTAL_TILES : ℚ) / ((TOTAL_TILES : ℚ) - (m : ℚ)) :=
        le_trans (by norm_num) hb
      unfold calculate_multiplier
      simp only [Nat.add_sub_cancel]
      rw [if_neg (by omega), if_neg (by omega)]
      refine min_le_min ?_ (le_refl _)
      have hp : ((TOTAL_TILES : ℚ) / ((TOTAL_TILES : ℚ) - (m : ℚ))) ^ (t'' + 1) ≤
          ((TOTAL_TILES : ℚ) / ((TOTAL_TILES : ℚ) - (m : ℚ))) ^ (t'' + 2) :=
        pow_le_pow_right₀ hb1 (by omega)
      nlinarith

/-! ### Helper lemmas about the session operations. -/

/-- The financial invariant maintained by every operation: the potential
win is the floor of bet times multiplier, and the multiplier is capped. -/
def Inv (s : MinesView) : Prop :=
  s.potential_win = ⌊(s.bet : ℚ) * s.current_multiplier⌋₊ ∧ s.current_multiplier ≤ 1000

lemma inv_mk_view (uid bet m : ℕ) (mines : List Bool) : Inv (mk_view uid bet m mines) := by
  constructor
  · show bet = ⌊(bet : ℚ) * 1⌋₊
    rw [mul_one, Nat.floor_natCast]
  · show (1 : ℚ) ≤ 1000
    norm_num

lemma inv_process_tile_click (s : MinesView) (p : ℕ) (h : Inv s) :
    Inv (process_tile_click s p).1 := by
  obtain ⟨h1, h2⟩ := h
  unfold process_tile_click handle_victory
  dsimp only
  repeat' split
  all_goals first
    | exact ⟨h1, h2⟩
    | exact ⟨rfl, calc_mult_le_1000 _ _ _⟩

lemma inv_process_cashout (s : MinesView) (h : Inv s) : Inv (process_cashout s).1 := by
  obtain ⟨h1, h2⟩ := h
  unfold process_cashout
  dsimp only
  repeat' split
  all_goals exact ⟨h1, h2⟩

lemma inv_exit_callback (s : MinesView) (h : Inv s) : Inv (exit_callback s).1 := by
  obtain ⟨h1, h2⟩ := h
  exact ⟨h1, h2⟩

lemma inv_on_timeout (s : MinesView) (h : Inv s) : Inv (on_timeout s).1 := by
  have hc := inv_process_cashout s h
  obtain ⟨h1, h2⟩ := h
  unfold on_timeout
  dsimp only
  repeat' split
  all_goals first
    | exact ⟨h1, h2⟩
    | exact ⟨hc.1, hc.2⟩

lemma inv_apply_op (s : MinesView) (op : Op) (h : Inv s) : Inv (apply_op s op).1 := by
  cases op with
  | click p => exact inv_process_tile_click s p h
  | cashout => exact inv_process_cashout s h
  | exitGame => exact inv_exit_callback s h
  | timeout => exact inv_on_timeout s h

lemma bet_process_cashout (s : MinesView) : (process_cashout s).1.bet = s.bet := by
  unfold process_cashout
  dsimp only
  repeat' split
  all_goals rfl

lemma bet_apply_op (s : MinesView) (op : Op) : (apply_op s op).1.bet = s.bet := by
  have hc := bet_process_cashout s
  cases op <;>
    unfold apply_op process_tile_click exit_callback on_timeout handle_victory <;>
    dsimp only <;>
    repeat' split
  all_goals first | rfl | exact hc

lemma process_tile_click_terminal (s : MinesView) (p : ℕ) (h : s.game_over = true) :
    process_tile_click s p = (s, []) := by
  simp [process_tile_click, h]

lemma process_cashout_terminal (s : MinesView) (h : s.game_over = true) :
    process_cashout s = (s, []) := by
  simp [process_cashout, h]

lemma on_timeout_terminal (s : MinesView) (h : s.game_over = true) :
    on_timeout s = (s, []) := by
  simp [on_timeout, h]

lemma exit_callback_terminal_trace (s : MinesView) (h : s.game_over = true) :
    (exit_callback s).2 = [Event.flipGameOver] := by
  simp [exit_callback, h]

lemma apply_op_preserves_terminal (s : MinesView) (op : Op) (h : s.game_over = true) :
    (apply_op s op).1.game_over = true := by
  cases op with
  | click p => rw [apply_op, process_tile_click_terminal s p h]; exact h
  | cashout => rw [apply_op, process_cashout_terminal s h]; exact h
  | exitGame => rfl
  | timeout => rw [apply_op, on_timeout_terminal s h]; exact h

lemma apply_op_terminal_no_credit (s : MinesView) (op : Op) (h : s.game_over = true) :
    (apply_op s op).2.filter isCredit = [] := by
  cases op with
  | click p => rw [apply_op, process_tile_click_terminal s p h]; rfl
  | cashout => rw [apply_op, process_cashout_terminal s h]; rfl
  | exitGame => rw [apply_op, exit_callback_terminal_trace s h]; rfl
  | timeout => rw [apply_op, on_timeout_terminal s h]; rfl

lemma run_terminal_no_credit (ops : List Op) :
    ∀ s : MinesView, s.game_over = true → ((run s ops).2.filter isCredit = []) := by
  induction ops with
  | nil => intro s _; rfl
  | cons op ops ih =>
    intro s h
    show ((apply_op s op).2 ++ (run (apply_op s op).1 ops).2).filter isCredit = []
    rw [List.filter_append, apply_op_terminal_no_credit s op h,
      ih (apply_op s op).1 (apply_op_preserves_terminal s op h)]
    rfl

/-- Flooring `bet` times a multiplier that is at most 1000 cannot exceed
`bet * 1000`. -/
lemma floor_mul_le_cap (bet : ℕ) (q : ℚ) (hq : q ≤ 1000) : ⌊(bet : ℚ) * q⌋₊ ≤ bet * 1000 := by
  have h1 : (bet : ℚ) * q ≤ ((bet * 1000 : ℕ) : ℚ) := by
    push_cast
    exact mul_le_mul_of_nonneg_left hq (Nat.cast_nonneg _)
  calc ⌊(bet : ℚ) * q⌋₊ ≤ ⌊((bet * 1000 : ℕ) : ℚ)⌋₊ := Nat.floor_le_floor h1
    _ = bet * 1000 := Nat.floor_natCast _

/-- Bound on the potential win from the financial invariant. -/
lemma pw_le_cap (s : MinesView) (hInv : Inv s) : s.potential_win ≤ s.bet * 1000 := by
  rw [hInv.1]
  exact floor_mul_le_cap s.bet s.current_multiplier hInv.2

lemma credit_bound_cashout (s : MinesView) (hInv : Inv s) :
    ∀ u a, Event.credit u a ∈ (process_cashout s).2 → a ≤ s.bet * 1000 := by
  intro u a ha
  unfold process_cashout at ha
  dsimp only at ha
  split at ha
  · simp at ha
  · simp only [List.mem_cons, List.not_mem_nil, or_false, Event.credit.injEq] at ha
    rcases ha with ⟨_, rfl⟩ | h | h
    · exact pw_le_cap s hInv
    · cases h
    · cases h

lemma credit_bound_click (s : MinesView) (p : ℕ) (hInv : Inv s) :
    ∀ u a, Event.credit u a ∈ (process_tile_click s p).2 → a ≤ s.bet * 1000 := by
  intro u a ha
  unfold process_tile_click handle_victory at ha
  dsimp only at ha
  repeat' split at ha
  all_goals simp only [List.mem_cons, List.not_mem_nil, or_false, false_or,
    Event.credit.injEq, reduceCtorEq] at ha
  all_goals obtain ⟨_, rfl⟩ := ha
  all_goals exact min_le_right _ _

lemma credit_bound_exit (s : MinesView) :
    ∀ u a, Event.credit u a ∈ (exit_callback s).2 → a ≤ s.bet * 1000 := by
  intro u a ha
  unfold exit_callback at ha
  dsimp only at ha
  split at ha
  · simp only [List.cons_append, List.nil_append, List.mem_cons, List.not_mem_nil, or_false,
      Event.credit.injEq] at ha
    rcases ha with ⟨_, rfl⟩ | h
    · omega
    · cases h
  · simp at ha

lemma credit_bound_timeout (s : MinesView) (hInv : Inv s) :
    ∀ u a, Event.credit u a ∈ (on_timeout s).2 → a ≤ s.bet * 1000 := by
  intro u a ha
  unfold on_timeout at ha
  dsimp only at ha
  repeat' split at ha
  · simp at ha
  · rw [List.mem_append] at ha
    rcases ha with ha | ha
    · exact credit_bound_cashout s hInv u a ha
    · simp at ha
  · simp only [List.mem_cons, List.not_mem_nil, or_false, Event.credit.injEq] at ha
    rcases ha with ⟨_, rfl⟩ | h
    · omega
    · cases h

lemma credit_bound_apply_op (s : MinesView) (op : Op) (hInv : Inv s) :
    ∀ u a, Event.credit u a ∈ (apply_op s op).2 → a ≤ s.bet * 1000 := by
  cases op with
  | click p => exact credit_bound_click s p hInv
  | cashout => exact credit_bound_cashout s hInv
  | exitGame => exact credit_bound_exit s
  | timeout => exact credit_bound_timeout s hInv

lemma inv_reachable {uid bet m : ℕ} {s : MinesView} (h : Reachable uid bet m s) : Inv s := by
  induction h with
  | init mines hlen hcnt hlo hhi => exact inv_mk_view uid bet m mines
  | next s op _ ih => exact inv_apply_op s op ih

/-! ### The multiplier contract as the spec words it (§4.1), for the
refinement part of claim C3. -/

/-- Spec §4.1: `tilesRevealed = 0` returns `1.0`; otherwise
`base = totalTiles / (totalTiles − hazardCount)`, `raw = base^tilesRevealed`,
result `min(raw × 0.95, 1000.0)`. -/
def spec_multiplier (totalTiles hazardCount tilesRevealed : ℕ) : ℚ :=
  if tilesRevealed = 0 then 1
  else
    let base : ℚ := (totalTiles : ℚ) / ((totalTiles : ℚ) - (hazardCount : ℚ))
    let raw := base ^ tilesRevealed
    min (raw * (19 / 20)) 1000

/-! ### Concrete fixtures for witnesses and counterexamples: a 3×3 game,
bet 100, three mines on tiles 6, 7, 8, and an 8-mine game with the single
safe tile at position 0. -/

def exL3 : List Bool := [false, false, false, false, false, false, true, true, true]

def exS0 : MinesView := mk_view 1 100 3 exL3

def exS1 : MinesView := (process_tile_click exS0 0).1

def exS2 : MinesView := (process_tile_click exS1 1).1

def exLost : MinesView := (process_tile_click exS0 6).1

def exL8 : List Bool := [false, true, true, true, true, true, true, true, true]

def exS8 : MinesView := mk_view 1 100 8 exL8

/-- `exS1` spelt out: one safe reveal at multiplier 1.425, potential win 142. -/
lemma exS1_eq : exS1 =
    { user_id := 1, bet := 100, mines_count := 3,
      tiles := [⟨false, true, false⟩, ⟨false, false, false⟩, ⟨false, false, false⟩,
        ⟨false, false, false⟩, ⟨false, false, false⟩, ⟨false, false, false⟩,
        ⟨true, false, false⟩, ⟨true, false, false⟩, ⟨true, false, false⟩]
      game_over := false, won := false, tiles_revealed := 1, safe_tiles := 6,
      current_multiplier := 57 / 40, potential_win := 142, in_registry := true } := by
  simp only [exS1, exS0, exL3, mk_view, process_tile_click]
  norm_num [calculate_multiplier, TOTAL_TILES, GRID_WIDTH, GRID_HEIGHT, min_def,
    Nat.floor_eq_iff, revealTile, MinesView.mk.injEq]

/-- `exS2` spelt out: two safe reveals at multiplier 2.1375, potential win 213. -/
lemma exS2_eq : exS2 =
    { user_id := 1, bet := 100, mines_count := 3,
      tiles := [⟨false, true, false⟩, ⟨false, true, false⟩, ⟨false, false, false⟩,
        ⟨false, false, false⟩, ⟨false, false, false⟩, ⟨false, false, false⟩,
        ⟨true, false, false⟩, ⟨true, false, false⟩, ⟨true, false, false⟩]
      game_over := false, won := false, tiles_revealed := 2, safe_tiles := 6,
      current_multiplier := 171 / 80, potential_win := 213, in_registry := true } := by
  simp only [exS2, exS1, exS0, exL3, mk_view, process_tile_click]
  norm_num [calculate_multiplier, TOTAL_TILES, GRID_WIDTH, GRID_HEIGHT, min_def,
    Nat.floor_eq_iff, revealTile, MinesView.mk.injEq]

/-- `exLost` spelt out: the state after clicking the mine at position 6. -/
lemma exLost_eq : exLost =
    { user_id := 1, bet := 100, mines_count := 3,
      tiles := [⟨false, false, true⟩, ⟨false, false, true⟩, ⟨false, false, true⟩,
        ⟨false, false, true⟩, ⟨false, false, true⟩, ⟨false, false, true⟩,
        ⟨true, true, true⟩, ⟨true, true, true⟩, ⟨true, true, true⟩]
      game_over := true, won := false, tiles_revealed := 0, safe_tiles := 6,
      current_multiplier := 1, potential_win := 100, in_registry := false } := by
  simp only [exLost, exS0, exL3, mk_view, process_tile_click]
  norm_num [revealTile, disableTile, TOTAL_TILES, GRID_WIDTH, GRID_HEIGHT,
    MinesView.mk.injEq]

/-! ### Claims -/

/-- C3: the multiplier function returns 1.0 for zero reveals and otherwise
`min((totalTiles/(totalTiles−hazardCount))^tilesRevealed × 0.95, 1000.0)`
(the source agrees with the spec's formula at `totalTiles = TOTAL_TILES`);
on a 3×3 grid with 3 mines and bet 100, one safe reveal gives multiplier
1.425 and potential payout 142, two give 2.1375 and 213. -/
theorem C3_multiplier_formula_and_concrete_values :
    (∀ st m t, calculate_multiplier st m t = spec_multiplier TOTAL_TILES m t) ∧
    calculate_multiplier 6 3 1 = 1.425 ∧
    calculate_multiplier 6 3 2 = 2.1375 ∧
    exS1.current_multiplier = 1.425 ∧ exS1.potential_win = 142 ∧
    exS2.current_multiplier = 2.1375 ∧ exS2.potential_win = 213 := by
  refine ⟨fun st m t => rfl, ?_, ?_, ?_, ?_, ?_, ?_⟩
  · rw [calculate_multiplier]
    norm_num [TOTAL_TILES, GRID_WIDTH, GRID_HEIGHT, min_def]
  · rw [calculate_multiplier]
    norm_num [TOTAL_TILES, GRID_WIDTH, GRID_HEIGHT, min_def]
  · rw [exS1_eq]
    norm_num
  · rw [exS1_eq]
  · rw [exS2_eq]
    norm_num
  · rw [exS2_eq]

/-- C4: for every hazard count in `[MIN_MINES, MAX_MINES]` and every
reveal count in the valid range, the multiplier is non-decreasing in the
reveal count (including the step from 1.0 at zero reveals), at least 1.0
and at most 1000.0. -/
theorem C4_multiplier_monotone_and_bounded (m t : ℕ) (h1 : MIN_MINES ≤ m)
    (h8 : m ≤ MAX_MINES) (ht1 : 1 ≤ t) (ht2 : t ≤ TOTAL_TILES - m) :
    calculate_multiplier (TOTAL_TILES - m) m (t - 1) ≤
      calculate_multiplier (TOTAL_TILES - m) m t ∧
    1 ≤ calculate_multiplier (TOTAL_TILES - m) m t ∧
    calculate_multiplier (TOTAL_TILES - m) m t ≤ 1000 ∧
    1 ≤ calculate_multiplier (TOTAL_TILES - m) m (t - 1) ∧
    calculate_multiplier (TOTAL_TILES - m) m (t - 1) ≤ 1000 :=
  ⟨calc_mult_mono _ m t h1 h8 ht1, one_le_calc_mult _ m t h1 h8,
    calc_mult_le_1000 _ m t, one_le_calc_mult _ m (t - 1) h1 h8,
    calc_mult_le_1000 _ m (t - 1)⟩

theorem C4_witness :
    (MIN_MINES ≤ 3 ∧ 3 ≤ MAX_MINES ∧ 1 ≤ 2 ∧ 2 ≤ TOTAL_TILES - 3) ∧
    (calculate_multiplier (TOTAL_TILES - 3) 3 (2 - 1) ≤
        calculate_multiplier (TOTAL_TILES - 3) 3 2 ∧
      1 ≤ calculate_multiplier (TOTAL_TILES - 3) 3 2 ∧
      calculate_multiplier (TOTAL_TILES - 3) 3 2 ≤ 1000 ∧
      1 ≤ calculate_multiplier (TOTAL_TILES - 3) 3 (2 - 1) ∧
      calculate_multiplier (TOTAL_TILES - 3) 3 (2 - 1) ≤ 1000) :=
  ⟨by decide,
    C4_multiplier_monotone_and_bounded 3 2 (by decide) (by decide) (by decide) (by decide)⟩

/-- C5: in every reachable session state the potential payout equals
`floor(bet × multiplier)`, and no operation from a reachable state ever
credits the ledger more than `bet × 1000`. -/
theorem C5_payout_floor_and_credit_cap (uid bet m : ℕ) (s : MinesView)
    (h : Reachable uid bet m s) :
    s.potential_win = ⌊(s.bet : ℚ) * s.current_multiplier⌋₊ ∧
    ∀ (op : Op) (u a : ℕ), Event.credit u a ∈ (apply_op s op).2 → a ≤ s.bet * 1000 := by
  have hInv := inv_reachable h
  exact ⟨hInv.1, fun op => credit_bound_apply_op s op hInv⟩

theorem C5_witness :
    Reachable 1 100 3 exS0 ∧
    (exS0.potential_win = ⌊(exS0.bet : ℚ) * exS0.current_multiplier⌋₊ ∧
      ∀ (op : Op) (u a : ℕ), Event.credit u a ∈ (apply_op exS0 op).2 → a ≤ exS0.bet * 1000) := by
  have hr : Reachable 1 100 3 exS0 :=
    Reachable.init exL3 (by decide) (by decide) (by decide) (by decide)
  exact ⟨hr, C5_payout_floor_and_credit_cap 1 100 3 exS0 hr⟩

/-- C6: whenever a safe reveal makes `tiles_revealed` reach `safe_tiles`,
the session immediately becomes Won (game_over and won set) and the trace
credits exactly `floor(bet × multiplier(safe_tiles))`. -/
theorem C6_full_clear_settles_as_won (s : MinesView) (p : ℕ) (tile : Tile)
    (hgo : s.game_over = false) (htile : s.tiles.get? p = some tile)
    (hrev : tile.revealed = false) (hmine : tile.is_mine = false)
    (hlast : s.tiles_revealed + 1 = s.safe_tiles) :
    (process_tile_click s p).1.game_over = true ∧
    (process_tile_click s p).1.won = true ∧
    (process_tile_click s p).2 =
      [Event.flipGameOver,
        Event.credit s.user_id
          ⌊(s.bet : ℚ) * calculate_multiplier s.safe_tiles s.mines_count s.safe_tiles⌋₊,
        Event.stats s.user_id s.bet
          ⌊(s.bet : ℚ) * calculate_multiplier s.safe_tiles s.mines_count s.safe_tiles⌋₊
          s.mines_count s.safe_tiles] := by
  have hcap : ⌊(s.bet : ℚ) * calculate_multiplier s.safe_tiles s.mines_count s.safe_tiles⌋₊ ≤
      s.bet * 1000 :=
    floor_mul_le_cap s.bet _ (calc_mult_le_1000 _ _ _)
  unfold process_tile_click handle_victory
  rw [hgo, htile]
  simp only [Bool.false_eq_true, if_false, hrev, hmine]
  split
  · refine ⟨rfl, rfl, ?_⟩
    rw [hlast, min_eq_left hcap]
  · rename_i hcond
    exact absurd hlast hcond

theorem C6_witness :
    (exS8.game_over = false ∧
      exS8.tiles.get? 0 = some { is_mine := false, revealed := false, disabled := false } ∧
      exS8.tiles_revealed + 1 = exS8.safe_tiles) ∧
    (process_tile_click exS8 0).1.game_over = true ∧
    (process_tile_click exS8 0).1.won = true ∧
    (process_tile_click exS8 0).2 =
      [Event.flipGameOver, Event.credit 1 855, Event.stats 1 100 855 8 1] := by
  have h := C6_full_clear_settles_as_won exS8 0
    { is_mine := false, revealed := false, disabled := false }
    rfl (by simp [exS8, mk_view, exL8]) rfl rfl rfl
  obtain ⟨h1, h2, h3⟩ := h
  refine ⟨⟨rfl, by simp [exS8, mk_view, exL8], rfl⟩, h1, h2, ?_⟩
  rw [h3]
  have hv : ⌊(exS8.bet : ℚ) *
      calculate_multiplier exS8.safe_tiles exS8.mines_count exS8.safe_tiles⌋₊ = 855 := by
    show ⌊(100 : ℚ) * calculate_multiplier 1 8 1⌋₊ = 855
    rw [calculate_multiplier]
    norm_num [TOTAL_TILES, GRID_WIDTH, GRID_HEIGHT, min_def, Nat.floor_eq_iff]
  rw [hv]
  rfl

/-- C7: exit from an Active session refunds exactly the bet when no tile
was revealed, and credits nothing at all when at least one tile was
revealed. -/
theorem C7_exit_refund_iff_no_reveals (s : MinesView) (hgo : s.game_over = false) :
    (s.tiles_revealed = 0 →
      (exit_callback s).2 = [Event.credit s.user_id s.bet, Event.flipGameOver]) ∧
    (0 < s.tiles_revealed → (exit_callback s).2 = [Event.flipGameOver]) := by
  constructor <;> intro h
  · simp [exit_callback, hgo, h]
  · have hne : (s.tiles_revealed == 0) = false := by
      simp only [beq_eq_false_iff_ne, ne_eq]
      omega
    simp [exit_callback, hgo, hne]

theorem C7_witness :
    (exS0.game_over = false ∧ exS0.tiles_revealed = 0 ∧
      (exit_callback exS0).2 = [Event.credit 1 100, Event.flipGameOver]) ∧
    (exS2.game_over = false ∧ 0 < exS2.tiles_revealed ∧
      (exit_callback exS2).2 = [Event.flipGameOver]) := by
  constructor
  · exact ⟨rfl, rfl, (C7_exit_refund_iff_no_reveals exS0 rfl).1 rfl⟩
  · refine ⟨?_, ?_, (C7_exit_refund_iff_no_reveals exS2 ?_).2 ?_⟩ <;>
      rw [exS2_eq] <;> norm_num

/-- C8: timeout of an Active session with at least one reveal behaves as
a cashout (credits the current potential payout); with zero reveals it
refunds exactly the bet. -/
theorem C8_timeout_cashout_or_refund (s : MinesView) (hgo : s.game_over = false) :
    (0 < s.tiles_revealed →
      (on_timeout s).2 =
        [Event.credit s.user_id s.potential_win,
          Event.stats s.user_id s.bet s.potential_win s.mines_count s.tiles_revealed,
          Event.flipGameOver, Event.flipGameOver]) ∧
    (s.tiles_revealed = 0 →
      (on_timeout s).2 = [Event.credit s.user_id s.bet, Event.flipGameOver]) := by
  constructor <;> intro h
  · have hne : (s.tiles_revealed == 0) = false := by
      simp only [beq_eq_false_iff_ne, ne_eq]
      omega
    simp [on_timeout, process_cashout, hgo, h, hne]
  · simp [on_timeout, hgo, h]

theorem C8_witness :
    (exS2.game_over = false ∧ 0 < exS2.tiles_revealed ∧
      (on_timeout exS2).2 =
        [Event.credit 1 213, Event.stats 1 100 213 3 2,
          Event.flipGameOver, Event.flipGameOver]) ∧
    (exS0.game_over = false ∧ exS0.tiles_revealed = 0 ∧
      (on_timeout exS0).2 = [Event.credit 1 100, Event.flipGameOver]) := by
  constructor
  · have hgo : exS2.game_over = false := by rw [exS2_eq]
    have htr : 0 < exS2.tiles_revealed := by rw [exS2_eq]; norm_num
    have h := (C8_timeout_cashout_or_refund exS2 hgo).1 htr
    rw [h, exS2_eq]
    exact ⟨hgo, htr, rfl⟩
  · exact ⟨rfl, rfl, (C8_timeout_cashout_or_refund exS0 rfl).2 rfl⟩

/-- C1 counterexample: after a terminal state (here: a lost game) a
further exit call is NOT a state-preserving no-op — it mutates the
session's tiles (revealing and disabling them), because `exit_callback`
is not guarded by `game_over`. -/
theorem C1_counterexample_exit_after_terminal_mutates :
    exLost.game_over = true ∧ (exit_callback exLost).1 ≠ exLost := by
  refine ⟨by rw [exLost_eq], ?_⟩
  intro h
  have ht := congrArg MinesView.tiles h
  rw [exLost_eq] at ht
  simp [exit_callback, exLost_eq, revealTile, disableTile] at ht

/-- C1 amended: once a session is terminal, reveal, cashout and timeout
are full no-ops; exit issues no ledger credit and preserves every
game/financial field (it only mutates tile display flags and the registry
entry); and no sequence of further operations ever credits the ledger
again. -/
theorem C1_terminal_amended (s : MinesView) (h : s.game_over = true) :
    (∀ p, process_tile_click s p = (s, [])) ∧
    process_cashout s = (s, []) ∧
    on_timeout s = (s, []) ∧
    (exit_callback s).2.filter isCredit = [] ∧
    (exit_callback s).1.game_over = s.game_over ∧
    (exit_callback s).1.won = s.won ∧
    (exit_callback s).1.tiles_revealed = s.tiles_revealed ∧
    (exit_callback s).1.current_multiplier = s.current_multiplier ∧
    (exit_callback s).1.potential_win = s.potential_win ∧
    (exit_callback s).1.bet = s.bet ∧
    ∀ ops : List Op, (run s ops).2.filter isCredit = [] := by
  refine ⟨fun p => process_tile_click_terminal s p h, process_cashout_terminal s h,
    on_timeout_terminal s h, ?_, h.symm, rfl, rfl, rfl, rfl, rfl,
    fun ops => run_terminal_no_credit ops s h⟩
  rw [exit_callback_terminal_trace s h]
  rfl

theorem C1_terminal_amended_witness :
    exLost.game_over = true ∧
    process_cashout exLost = (exLost, []) ∧
    on_timeout exLost = (exLost, []) ∧
    (exit_callback exLost).2.filter isCredit = [] := by
  have hgo : exLost.game_over = true := by rw [exLost_eq]
  have h := C1_terminal_amended exLost hgo
  exact ⟨hgo, h.2.1, h.2.2.1, h.2.2.2.1⟩

/-- C2: evaluating `_process_cashout` on an Active session with two
reveals shows the terminal-status write (`game_over = True`, line 493)
comes AFTER the ledger credit call (line 481) in program order: the
credit is the first event of the trace and the status flip the last,
contradicting the claimed happens-before ordering. -/
theorem C2_cashout_credit_precedes_terminal_write :
    exS2.game_over = false ∧ 0 < exS2.tiles_revealed ∧
    (process_cashout exS2).2 =
      [Event.credit 1 213, Event.stats 1 100 213 3 2, Event.flipGameOver] ∧
    (process_cashout exS2).2.findIdx isCredit = 0 ∧
    (process_cashout exS2).2.findIdx isFlip = 2 := by
  have h2 : (process_cashout exS2).2 =
      [Event.credit 1 213, Event.stats 1 100 213 3 2, Event.flipGameOver] := by
    rw [exS2_eq]
    simp [process_cashout]
  refine ⟨by rw [exS2_eq], by rw [exS2_eq]; norm_num, h2, ?_, ?_⟩ <;> rw [h2] <;> rfl

/-- C9: every validation failure leaves the net balance unchanged — bets
below the minimum, above the maximum, over the balance or malformed are
rejected before any debit, and an invalid mine count after the debit is
answered with an immediate refund of the full bet. -/
theorem C9_validation_leaves_balance_unchanged (uid cash bet : ℕ) :
    (mines_command uid false cash .malformed = (.rejected, [])) ∧
    (∀ n, n < MIN_BET → mines_command uid false cash (.parsed n) = (.rejected, [])) ∧
    (∀ n, MAX_BET < n → mines_command uid false cash (.parsed n) = (.rejected, [])) ∧
    (∀ n, cash < n → mines_command uid false cash (.parsed n) = (.rejected, [])) ∧
    (∀ z : ℤ, (z < (MIN_MINES : ℤ) ∨ (MAX_MINES : ℤ) < z) →
      (modal_callback uid bet (.num z)).2 = [Event.credit uid bet] ∧
      netDelta (Event.debit uid bet :: (modal_callback uid bet (.num z)).2) = 0) ∧
    ((modal_callback uid bet .notNumeric).2 = [Event.credit uid bet] ∧
      netDelta (Event.debit uid bet :: (modal_callback uid bet .notNumeric).2) = 0) := by
  have hred : ∀ n, mines_command uid false cash (.parsed n) =
      (if n < MIN_BET then (.rejected, [])
        else if n > MAX_BET then (.rejected, [])
        else if n > cash then (.rejected, [])
        else (.modalShown n, [Event.debit uid n])) := fun n => rfl
  refine ⟨rfl, ?_, ?_, ?_, ?_, ?_⟩
  · intro n h
    rw [hred]
    split_ifs
    all_goals rfl
  · intro n h
    rw [hred]
    split_ifs
    all_goals rfl
  · intro n h
    rw [hred]
    split_ifs
    all_goals rfl
  · intro z hz
    have ht : (modal_callback uid bet (.num z)).2 = [Event.credit uid bet] := by
      unfold modal_callback
      dsimp only
      rw [if_pos hz]
    refine ⟨ht, ?_⟩
    rw [ht]
    show (0 : ℤ) - bet + bet = 0
    omega
  · refine ⟨rfl, ?_⟩
    show (0 : ℤ) - bet + bet = 0
    omega

theorem C9_witness :
    (5 < MIN_BET ∧ mines_command 7 false 100 (BetInput.parsed 5) = (.rejected, [])) ∧
    (MAX_BET < 600000 ∧ mines_command 7 false 100 (BetInput.parsed 600000) = (.rejected, [])) ∧
    (100 < 200 ∧ mines_command 7 false 100 (BetInput.parsed 200) = (.rejected, [])) ∧
    ((MAX_MINES : ℤ) < 9 ∧
      netDelta (Event.debit 7 50 :: (modal_callback 7 50 (.num 9)).2) = 0) := by
  have h := C9_validation_leaves_balance_unchanged 7 100 50
  exact ⟨⟨by decide, h.2.1 5 (by decide)⟩, ⟨by decide, h.2.2.1 600000 (by decide)⟩,
    ⟨by decide, h.2.2.2.1 200 (by decide)⟩,
    ⟨by decide, (h.2.2.2.2.1 9 (Or.inr (by decide))).2⟩⟩

/-- C10 counterexample: exit from an Active session is a transition to a
terminal settlement, yet it forwards NO outcome record to the statistics
interface (`exit_callback` never calls `record_mines_stats`). -/
theorem C10_counterexample_exit_records_no_stats :
    exS2.game_over = false ∧ (exit_callback exS2).1.game_over = true ∧
    (exit_callback exS2).2.filter isStats = [] := by
  refine ⟨by rw [exS2_eq], rfl, ?_⟩
  rw [exS2_eq]
  simp [exit_callback, isStats]

/-- C10 amended: loss, victory, cashout and timeout-with-reveals each
forward exactly one outcome record carrying the player id, bet, payout,
mine count and tiles revealed; exit and timeout-with-zero-reveals forward
none. -/
theorem C10_amended_stats_per_settlement (s : MinesView) (hgo : s.game_over = false) :
    (∀ p tile, s.tiles.get? p = some tile → tile.revealed = false → tile.is_mine = true →
      (process_tile_click s p).2.filter isStats =
        [Event.stats s.user_id s.bet 0 s.mines_count s.tiles_revealed]) ∧
    (∀ p tile, s.tiles.get? p = some tile → tile.revealed = false → tile.is_mine = false →
      s.tiles_revealed + 1 = s.safe_tiles →
      (process_tile_click s p).2.filter isStats =
        [Event.stats s.user_id s.bet
          (min ⌊(s.bet : ℚ) * calculate_multiplier s.safe_tiles s.mines_count s.safe_tiles⌋₊
            (s.bet * 1000)) s.mines_count s.safe_tiles]) ∧
    (0 < s.tiles_revealed → (process_cashout s).2.filter isStats =
        [Event.stats s.user_id s.bet s.potential_win s.mines_count s.tiles_revealed]) ∧
    (0 < s.tiles_revealed → (on_timeout s).2.filter isStats =
        [Event.stats s.user_id s.bet s.potential_win s.mines_count s.tiles_revealed]) ∧
    ((exit_callback s).2.filter isStats = []) ∧
    (s.tiles_revealed = 0 → (on_timeout s).2.filter isStats = []) := by
  have hne : ∀ h : 0 < s.tiles_revealed, (s.tiles_revealed == 0) = false := by
    intro h
    simp only [beq_eq_false_iff_ne, ne_eq]
    omega
  refine ⟨?_, ?_, ?_, ?_, ?_, ?_⟩
  · intro p tile htile hrev hmine
    unfold process_tile_click
    rw [hgo, htile]
    simp only [Bool.false_eq_true, if_false, hrev, hmine, if_true]
    rfl
  · intro p tile htile hrev hmine hlast
    unfold process_tile_click handle_victory
    rw [hgo, htile]
    simp only [Bool.false_eq_true, if_false, hrev, hmine]
    split
    · rw [hlast]
      rfl
    · rename_i hcond
      exact absurd hlast hcond
  · intro h
    simp [process_cashout, hgo, hne h, isStats]
  · intro h
    simp [on_timeout, process_cashout, hgo, h, hne h, isStats]
  · simp [exit_callback, isStats, List.filter_append, apply_ite (List.filter isStats)]
  · intro h
    simp [on_timeout, hgo, h, isStats]

theorem C10_amended_witness :
    (exS0.game_over = false ∧
      exS0.tiles.get? 6 = some { is_mine := true, revealed := false, disabled := false } ∧
      (process_tile_click exS0 6).2.filter isStats = [Event.stats 1 100 0 3 0]) ∧
    (0 < exS2.tiles_revealed ∧
      (process_cashout exS2).2.filter isStats = [Event.stats 1 100 213 3 2]) := by
  have hgo2 : exS2.game_over = false := by rw [exS2_eq]
  have htr2 : 0 < exS2.tiles_revealed := by rw [exS2_eq]; norm_num
  constructor
  · have htile : exS0.tiles.get? 6 =
        some { is_mine := true, revealed := false, disabled := false } := by
      simp [exS0, mk_view, exL3]
    exact ⟨rfl, htile,
      (C10_amended_stats_per_settlement exS0 rfl).1 6 _ htile rfl rfl⟩
  · have h2 := (C10_amended_stats_per_settlement exS2 hgo2).2.2.1 htr2
    refine ⟨htr2, ?_⟩
    rw [h2, exS2_eq]

end Mines
